import Mathlib

/-!
# Verification of the outlook-cleaner IMAP client

Shallow embedding of the core of the `outlook-cleaner` repository
(`auth.py`, `imap_service.py`, `main.py`) and proofs about it.

Conventions used throughout:
* Python byte strings are `List Nat` with every byte `< 256`.
* Python exceptions that a function can raise are made explicit with
  `Except`/dedicated result types; the caught exception classes
  (`OSError`, `imaplib.IMAP4.error`) are modelled by the `PyExc.transport`
  constructor, everything else by `PyExc.other`.
* Network interaction (server replies, codec registry, MIME decoding)
  is passed in as explicit oracle functions, so every theorem quantifies
  over all possible server/library behaviour.
-/

/-! ## Base64 (model of Python's `base64.b64encode` / `base64.b64decode`)

`auth.py` builds the SASL string with `base64.b64encode(...)`; the decoder is
the standard inverse used to state the round-trip property. Characters are
represented by their ASCII codes (`61` is `'='`). -/

/-- ASCII code of the base64 alphabet character for a sextet `n < 64`. -/
def b64EncChar (n : Nat) : Nat :=
  if n < 26 then 65 + n
  else if n < 52 then 97 + (n - 26)
  else if n < 62 then 48 + (n - 52)
  else if n = 62 then 43
  else 47

/-- Partial inverse of `b64EncChar`: sextet value of an alphabet character. -/
def b64DecChar (c : Nat) : Option Nat :=
  if 65 ≤ c ∧ c ≤ 90 then some (c - 65)
  else if 97 ≤ c ∧ c ≤ 122 then some (c - 97 + 26)
  else if 48 ≤ c ∧ c ≤ 57 then some (c - 48 + 52)
  else if c = 43 then some 62
  else if c = 47 then some 63
  else none

/-- Standard base64 encoding of a byte list, with `=` padding. -/
def b64encode : List Nat → List Nat
  | [] => []
  | [b0] =>
    [b64EncChar (b0 * 65536 / 262144), b64EncChar (b0 * 65536 / 4096 % 64), 61, 61]
  | [b0, b1] =>
    [b64EncChar ((b0 * 65536 + b1 * 256) / 262144),
     b64EncChar ((b0 * 65536 + b1 * 256) / 4096 % 64),
     b64EncChar ((b0 * 65536 + b1 * 256) / 64 % 64), 61]
  | b0 :: b1 :: b2 :: rest =>
    b64EncChar ((b0 * 65536 + b1 * 256 + b2) / 262144) ::
    b64EncChar ((b0 * 65536 + b1 * 256 + b2) / 4096 % 64) ::
    b64EncChar ((b0 * 65536 + b1 * 256 + b2) / 64 % 64) ::
    b64EncChar ((b0 * 65536 + b1 * 256 + b2) % 64) ::
    b64encode rest

/-- Standard base64 decoding: four characters at a time, honouring `=` padding
in the final group; `none` on malformed input. -/
def b64decode : List Nat → Option (List Nat)
  | [] => some []
  | c0 :: c1 :: c2 :: c3 :: rest =>
    if c2 = 61 then
      if c3 = 61 ∧ rest = [] then
        match b64DecChar c0, b64DecChar c1 with
        | some s0, some s1 => some [s0 * 4 + s1 / 16]
        | _, _ => none
      else none
    else if c3 = 61 then
      if rest = [] then
        match b64DecChar c0, b64DecChar c1, b64DecChar c2 with
        | some s0, some s1, some s2 =>
          some [s0 * 4 + s1 / 16, s1 % 16 * 16 + s2 / 4]
        | _, _, _ => none
      else none
    else
      match b64DecChar c0, b64DecChar c1, b64DecChar c2, b64DecChar c3, b64decode rest with
      | some s0, some s1, some s2, some s3, some tail =>
        some ((s0 * 4 + s1 / 16) :: (s1 % 16 * 16 + s2 / 4) :: (s2 % 4 * 64 + s3) :: tail)
      | _, _, _, _, _ => none
  | _ => none

theorem b64DecChar_b64EncChar : ∀ n, n < 64 → b64DecChar (b64EncChar n) = some n := by decide

theorem b64EncChar_ne_61 : ∀ n, n < 64 → b64EncChar n ≠ 61 := by decide

/-- The base64 decoder inverts the encoder on every byte list. -/
theorem b64decode_b64encode (l : List Nat) (h : ∀ b ∈ l, b < 256) :
    b64decode (b64encode l) = some l := by
  induction l using b64encode.induct with
  | case1 => rfl
  | case2 b0 =>
    have hb0 : b0 < 256 := h b0 (by simp)
    simp only [b64encode, b64decode, and_self, if_true, eq_self_iff_true,
      b64DecChar_b64EncChar _ (show b0 * 65536 / 262144 < 64 by omega),
      b64DecChar_b64EncChar _ (Nat.mod_lt (b0 * 65536 / 4096) (show 0 < 64 by omega))]
    simp only [Option.some.injEq, List.cons.injEq, and_true]
    omega
  | case3 b0 b1 =>
    have hb0 : b0 < 256 := h b0 (by simp)
    have hb1 : b1 < 256 := h b1 (by simp)
    simp only [b64encode, b64decode, and_self, if_true, if_false, eq_self_iff_true,
      b64EncChar_ne_61 _ (Nat.mod_lt ((b0 * 65536 + b1 * 256) / 64) (show 0 < 64 by omega)),
      b64DecChar_b64EncChar _ (show (b0 * 65536 + b1 * 256) / 262144 < 64 by omega),
      b64DecChar_b64EncChar _ (Nat.mod_lt ((b0 * 65536 + b1 * 256) / 4096) (show 0 < 64 by omega)),
      b64DecChar_b64EncChar _ (Nat.mod_lt ((b0 * 65536 + b1 * 256) / 64) (show 0 < 64 by omega))]
    simp only [Option.some.injEq, List.cons.injEq, and_true]
    omega
  | case4 b0 b1 b2 rest ih =>
    have hb0 : b0 < 256 := h b0 (by simp)
    have hb1 : b1 < 256 := h b1 (by simp)
    have hb2 : b2 < 256 := h b2 (by simp)
    have hrest : ∀ b ∈ rest, b < 256 := fun b hb => h b (by simp [hb])
    simp only [b64encode, b64decode, if_false,
      b64EncChar_ne_61 _ (Nat.mod_lt ((b0 * 65536 + b1 * 256 + b2) / 64) (show 0 < 64 by omega)),
      b64EncChar_ne_61 _ (Nat.mod_lt (b0 * 65536 + b1 * 256 + b2) (show 0 < 64 by omega)),
      b64DecChar_b64EncChar _ (show (b0 * 65536 + b1 * 256 + b2) / 262144 < 64 by omega),
      b64DecChar_b64EncChar _ (Nat.mod_lt ((b0 * 65536 + b1 * 256 + b2) / 4096) (show 0 < 64 by omega)),
      b64DecChar_b64EncChar _ (Nat.mod_lt ((b0 * 65536 + b1 * 256 + b2) / 64) (show 0 < 64 by omega)),
      b64DecChar_b64EncChar _ (Nat.mod_lt (b0 * 65536 + b1 * 256 + b2) (show 0 < 64 by omega)),
      ih hrest]
    simp only [Option.some.injEq, List.cons.injEq, and_true]
    omega

/-! ## SASL XOAUTH2 string (`auth.py`, `authenticate_oauth2`, lines 89-91) -/

/-- UTF-8 bytes of an ASCII string literal. -/
def asciiBytes (s : String) : List Nat := s.toList.map Char.toNat

/-- `auth.py` line 90: `auth_string = f"user={email_address}\x01auth=Bearer {access_token}\x01\x01"`,
at the byte level (the UTF-8 encoding of a concatenation is the concatenation
of the encodings). -/
def xoauth2AuthString (email_address access_token : List Nat) : List Nat :=
  asciiBytes "user=" ++ email_address ++ [1] ++ asciiBytes "auth=Bearer " ++ access_token ++ [1, 1]

/-- C4: base64-decoding the SASL authentication string built by
`authenticate_oauth2` yields back exactly
`user=<identity>\x01auth=Bearer <token>\x01\x01` (at the UTF-8 byte level),
for every identity and bearer-token byte string. -/
theorem xoauth2_roundtrip_spec (email_address access_token : List Nat)
    (hemail : ∀ b ∈ email_address, b < 256) (htoken : ∀ b ∈ access_token, b < 256) :
    b64decode (b64encode (xoauth2AuthString email_address access_token)) =
      some (xoauth2AuthString email_address access_token) := by
  apply b64decode_b64encode
  have h1 : ∀ b ∈ asciiBytes "user=", b < 256 := by decide
  have h2 : ∀ b ∈ asciiBytes "auth=Bearer ", b < 256 := by decide
  intro b hb
  simp only [xoauth2AuthString, List.mem_append] at hb
  rcases hb with ((((hb | hb) | hb) | hb) | hb) | hb
  · exact h1 b hb
  · exact hemail b hb
  · simp at hb; omega
  · exact h2 b hb
  · exact htoken b hb
  · simp at hb; omega

theorem xoauth2_roundtrip_witness :
    b64decode (b64encode (xoauth2AuthString (asciiBytes "u@x") (asciiBytes "tk"))) =
      some (xoauth2AuthString (asciiBytes "u@x") (asciiBytes "tk")) :=
  xoauth2_roundtrip_spec _ _ (by decide) (by decide)

/-! ## Manual XOAUTH2 exchange (`auth.py`) -/

/-- Python's `str.startswith`, via the underlying character lists. -/
def pyStartsWith (s prefixStr : String) : Bool := prefixStr.toList.isPrefixOf s.toList

/-- `s1 in s2` for Python strings: contiguous-substring containment. -/
def strContainsStr (hay needle : String) : Bool := decide (needle.toList <:+: hay.toList)

/-- Python's `str.upper` (character-wise upper-casing). -/
def pyUpper (s : String) : String := String.mk (s.data.map Char.toUpper)

/-- Python's `' '.join(...)`. -/
def pyJoinSpace : List String → String
  | [] => ""
  | [x] => x
  | x :: xs => x ++ " " ++ pyJoinSpace xs

/-- Helper for Python's `str.split()`: split into maximal runs of non-space
characters (`acc` holds the reversed current run). -/
def splitTokAux : List Char → List Char → List String
  | [], acc => if acc.isEmpty then [] else [String.mk acc.reverse]
  | c :: cs, acc =>
    if c = ' ' then
      if acc.isEmpty then splitTokAux cs []
      else String.mk acc.reverse :: splitTokAux cs []
    else splitTokAux cs (c :: acc)

/-- The error text built at `auth.py` line 43. -/
def authFailMsg (full_response : String) : String :=
  "XOAUTH2 authentication failed. Server response: " ++ full_response

/-- `auth.py` `_validate_auth_response` (lines 39-44): succeed when the response
contains the tag and the uppercased response contains `"OK"`; otherwise raise
`imaplib.IMAP4.error` with a message embedding the full response. -/
def validate_auth_response (full_response tag_str : String) : Except String Bool :=
  if strContainsStr full_response tag_str && strContainsStr (pyUpper full_response) "OK" then
    Except.ok true
  else
    Except.error (authFailMsg full_response)

/-- Spec-side reading of a case-insensitive `"OK"` *token*: the uppercased
response, split on spaces as Python's `str.split` would, has `"OK"` as one of
its whitespace-delimited tokens. Used to compare the spec's wording against
the source's substring test. -/
def specHasOkToken (s : String) : Bool := (splitTokAux (pyUpper s).data []).contains "OK"

/-- `auth.py` `_read_imap_response` on a scripted line stream: reading past the
script yields `''` (a closed socket's `readline` returns `b''`). -/
def readLine : List String → String × List String
  | [] => ("", [])
  | l :: ls => (l, ls)

/-- `auth.py` `_read_final_auth_response` (lines 22-36): read at most
`max_attempts` lines (fuel), stopping early on an empty line (not collected)
or a line starting with the tag (collected); returns the collected lines and
the unread remainder of the script. -/
def read_final_auth_response (tag_str : String) : Nat → List String → List String × List String
  | 0, ls => ([], ls)
  | n + 1, ls =>
    match readLine ls with
    | (resp, ls1) =>
      if resp = "" then ([], ls1)
      else if pyStartsWith resp tag_str then ([resp], ls1)
      else
        match read_final_auth_response tag_str n ls1 with
        | (rest, ls2) => (resp :: rest, ls2)

/-- A scripted server for the manual exchange: the line answering the
`AUTHENTICATE XOAUTH2` command, then the lines answering the credential. -/
structure ScriptedServer where
  firstLine : String
  lines : List String

/-- `auth.py` `_authenticate_oauth2_manual` (lines 47-82): require a `+`
continuation, then read the final response (max 10 lines, joined by spaces)
and validate it. On success the Python code also sets
`imap_conn.state = 'AUTH'` and returns `True`. -/
def authenticate_oauth2_manual (srv : ScriptedServer) (tag : String) : Except String Bool :=
  if !(pyStartsWith srv.firstLine "+" || srv.firstLine == "+") then
    Except.error ("Unexpected server response: " ++ srv.firstLine ++ ". Expected '+' to continue.")
  else
    validate_auth_response (pyJoinSpace (read_final_auth_response tag 10 srv.lines).1) tag

/-- Outcome of the primary `imap_conn.authenticate('XOAUTH2', ...)` call:
either it completes with `(typ, data)` or it raises some exception
(`AttributeError`, `TypeError`, transport error, ...). -/
inductive PrimaryOutcome where
  | completed (typ : String) (data : String)
  | raised (msg : String)
deriving DecidableEq

/-- `auth.py` `authenticate_oauth2` (lines 94-115): if the primary call
completes with `'OK'`, succeed; a non-`'OK'` completion raises inside the
`try` and is caught, and any raised exception is caught — both fall back to
the manual implementation. -/
def authenticate_oauth2 (primary : PrimaryOutcome) (srv : ScriptedServer) (tag : String) :
    Except String Bool :=
  match primary with
  | .completed typ _ =>
    if typ = "OK" then Except.ok true
    else authenticate_oauth2_manual srv tag
  | .raised _ => authenticate_oauth2_manual srv tag

/-- C8: every exception from the primary authenticate call, and every
completion with a non-OK status, makes `authenticate_oauth2` run the manual
XOAUTH2 fallback instead of failing immediately. -/
theorem authenticate_oauth2_fallback_spec (primary : PrimaryOutcome) (srv : ScriptedServer)
    (tag : String) (h : ∀ data, primary ≠ PrimaryOutcome.completed "OK" data) :
    authenticate_oauth2 primary srv tag = authenticate_oauth2_manual srv tag := by
  cases primary with
  | completed typ data =>
    have hne : typ ≠ "OK" := fun he => h data (by rw [he])
    simp [authenticate_oauth2, hne]
  | raised e => rfl

theorem authenticate_oauth2_fallback_witness :
    authenticate_oauth2 (PrimaryOutcome.raised "socket reset")
        ⟨"+", ["A1 OK AUTHENTICATE completed"]⟩ "A1" =
      authenticate_oauth2_manual ⟨"+", ["A1 OK AUTHENTICATE completed"]⟩ "A1" :=
  authenticate_oauth2_fallback_spec _ _ _
    (fun _ h => PrimaryOutcome.noConfusion h)

/-- Helper for C9: the reader consumes from the front (the remainder is a
suffix of the script), consumes at most `n` lines of fuel `n`, and collects
at most `n` lines. -/
theorem read_final_auth_response_props (tag_str : String) :
    ∀ (n : Nat) (ls : List String),
      (read_final_auth_response tag_str n ls).2 <:+ ls ∧
      ls.length ≤ (read_final_auth_response tag_str n ls).2.length + n ∧
      (read_final_auth_response tag_str n ls).1.length ≤ n := by
  intro n
  induction n with
  | zero =>
    intro ls
    exact ⟨List.suffix_rfl, by simp [read_final_auth_response], by simp [read_final_auth_response]⟩
  | succ n ih =>
    intro ls
    cases ls with
    | nil => simp [read_final_auth_response, readLine]
    | cons l ls' =>
      simp only [read_final_auth_response, readLine]
      by_cases h1 : l = ""
      · simp only [h1, if_pos rfl]
        exact ⟨List.suffix_cons "" ls', by simp, by simp⟩
      · simp only [if_neg h1]
        by_cases h2 : pyStartsWith l tag_str
        · simp only [h2, if_pos rfl]
          exact ⟨List.suffix_cons l ls', by simp, by simp⟩
        · simp only [h2, Bool.false_eq_true, if_neg (by simp : ¬False)]
          obtain ⟨hsuf, hlen, hcol⟩ := ih ls'
          refine ⟨hsuf.trans (List.suffix_cons l ls'), ?_, ?_⟩
          · simp only [List.length_cons]; omega
          · simp only [List.length_cons]; omega

/-- C9: with the default maximum attempt count 10, the manual exchange's
response reader consumes at most 10 lines of the server script (the unread
remainder is a suffix of the script losing at most 10 elements, and at most
10 lines are collected), and it stops early on an empty line (not collected)
or on a line that begins with the request tag (collected last). -/
theorem read_final_auth_response_bounded_spec (tag_str : String) (lines : List String) :
    lines.length ≤ (read_final_auth_response tag_str 10 lines).2.length + 10 ∧
    (read_final_auth_response tag_str 10 lines).2 <:+ lines ∧
    (read_final_auth_response tag_str 10 lines).1.length ≤ 10 ∧
    (∀ ls, read_final_auth_response tag_str 10 ("" :: ls) = ([], ls)) ∧
    (∀ l ls, l ≠ "" → pyStartsWith l tag_str = true →
      read_final_auth_response tag_str 10 (l :: ls) = ([l], ls)) := by
  obtain ⟨hsuf, hlen, hcol⟩ := read_final_auth_response_props tag_str 10 lines
  refine ⟨hlen, hsuf, hcol, ?_, ?_⟩
  · intro ls
    simp [read_final_auth_response, readLine]
  · intro l ls hne hpre
    simp [read_final_auth_response, readLine, hne, hpre]

theorem read_final_auth_response_bounded_witness :
    read_final_auth_response "A1" 10 ["A1 OK done", "junk"] = (["A1 OK done"], ["junk"]) :=
  (read_final_auth_response_bounded_spec "A1" ["A1 OK done", "junk"]).2.2.2.2
    "A1 OK done" ["junk"] (by decide) (by decide)

/-- C3 counterexample: the server response `"A1 NO BROKEN"` for tag `"A1"`
contains no case-insensitive `"OK"` *token* (its tokens are `A1`, `NO`,
`BROKEN`), yet `_validate_auth_response` reports success, because the source
tests `'OK' in full_response.upper()` — a substring test that matches inside
`BROKEN`. -/
theorem validate_auth_ok_token_counterexample :
    validate_auth_response "A1 NO BROKEN" "A1" = Except.ok true ∧
    specHasOkToken "A1 NO BROKEN" = false := by
  constructor
  · rfl
  · rfl

/-- C3 (amended): the exchange's validation succeeds exactly when the
accumulated text contains the original request tag and the uppercased text
contains `"OK"` as a substring (not necessarily as a standalone token);
otherwise it fails with an authentication error whose message carries the
full server response text. -/
theorem validate_auth_response_spec (full_response tag_str : String) :
    (validate_auth_response full_response tag_str = Except.ok true ↔
      (tag_str.toList <:+: full_response.toList ∧
        "OK".toList <:+: (pyUpper full_response).toList)) ∧
    (validate_auth_response full_response tag_str = Except.ok true ∨
      validate_auth_response full_response tag_str = Except.error (authFailMsg full_response)) ∧
    strContainsStr (authFailMsg full_response) full_response = true := by
  refine ⟨?_, ?_, ?_⟩
  · unfold validate_auth_response
    by_cases h1 : tag_str.toList <:+: full_response.toList <;>
      by_cases h2 : ("OK".toList <:+: (pyUpper full_response).toList) <;>
        simp [strContainsStr, h1, h2]
  · unfold validate_auth_response
    split
    · exact Or.inl rfl
    · exact Or.inr rfl
  · simp only [strContainsStr, authFailMsg, decide_eq_true_eq]
    refine ⟨"XOAUTH2 authentication failed. Server response: ".toList, [], ?_⟩
    simp [String.toList]

/-! ## Search engine and per-UID processing (`imap_service.py`, `main.py`)

`_search_sender_on_server`'s result is abstracted as an oracle
`search : String → List String` (it is total: it catches its own errors and
returns a list, see the C5 section below). The per-UID subject fetch is the
oracle `rawFetch`; `_fetch_email_subject` catches transport-class errors
(`imaplib.IMAP4.error`, `OSError`) itself and substitutes a placeholder. -/

/-- Python exceptions: `transport` stands for the caught classes
`OSError` / `imaplib.IMAP4.error`, `other` for everything else. -/
inductive PyExc where
  | transport (msg : String)
  | other (msg : String)
deriving DecidableEq

/-- One located message as built at `imap_service.py` lines 164-168. -/
structure MessageRecord where
  id : String
  sender : String
  subject : String
deriving DecidableEq

/-- `imap_service.py` `_fetch_email_subject` (lines 96-113): any
`imaplib.IMAP4.error` / `OSError` from the raw fetch is caught and replaced
by the placeholder subject; other exceptions propagate. -/
def fetch_email_subject (rawFetch : String → Except PyExc String) (uid : String) :
    Except PyExc String :=
  match rawFetch uid with
  | .ok s => .ok s
  | .error (.transport _) => .ok "(Error fetching subject)"
  | .error e => .error e

/-- Result of `_process_email_ids`: either the collected records, or a
propagated exception. Either way the (mutated-in-place) seen-set is carried
out, because `total_found_uids.add` happens before any raise. -/
inductive ProcResult where
  | ok (recs : List MessageRecord) (seen : List String)
  | err (e : PyExc) (seen : List String)
deriving DecidableEq

/-- `imap_service.py` `_process_email_ids` (lines 146-181): skip already-seen
UIDs, add the UID to the seen-set, fetch the subject, append the record; a
transport-class error from the body triggers a `noop` liveness probe —
continue if alive (`noopAlive`), re-raise if dead; other exceptions
propagate. -/
def process_email_ids (rawFetch : String → Except PyExc String) (noopAlive : Bool)
    (sender : String) : List String → List String → ProcResult
  | [], seen => .ok [] seen
  | uid :: rest, seen =>
    if seen.contains uid then process_email_ids rawFetch noopAlive sender rest seen
    else
      match fetch_email_subject rawFetch uid with
      | .ok subject =>
        match process_email_ids rawFetch noopAlive sender rest (uid :: seen) with
        | .ok recs seen' => .ok (⟨uid, sender, subject⟩ :: recs) seen'
        | .err e seen' => .err e seen'
      | .error e =>
        match e with
        | .transport _ =>
          if noopAlive then process_email_ids rawFetch noopAlive sender rest (uid :: seen)
          else .err e (uid :: seen)
        | _ => .err e (uid :: seen)

/-- The seen-set carried out of a `ProcResult`. -/
def procSeen : ProcResult → List String
  | .ok _ seen => seen
  | .err _ seen => seen

theorem process_email_ids_seen_mono (f : String → Except PyExc String) (a : Bool) (s : String) :
    ∀ (uids seen : List String) (x : String), x ∈ seen →
      x ∈ procSeen (process_email_ids f a s uids seen) := by
  intro uids
  induction uids with
  | nil => intro seen x hx; simpa [process_email_ids, procSeen] using hx
  | cons uid rest ih =>
    intro seen x hx
    simp only [process_email_ids]
    cases hc : seen.contains uid with
    | true => exact ih seen x hx
    | false =>
      cases hf : fetch_email_subject f uid with
      | ok subject =>
        have hx' : x ∈ uid :: seen := List.mem_cons_of_mem uid hx
        have := ih (uid :: seen) x hx'
        cases hrec : process_email_ids f a s rest (uid :: seen) with
        | ok recs seen' => simpa [procSeen, hrec] using this
        | err e seen' => simpa [procSeen, hrec] using this
      | error e =>
        cases e with
        | transport m =>
          cases a with
          | true => exact ih (uid :: seen) x (List.mem_cons_of_mem uid hx)
          | false => exact List.mem_cons_of_mem uid hx
        | other m => exact List.mem_cons_of_mem uid hx

theorem process_email_ids_ok_spec (f : String → Except PyExc String) (a : Bool) (s : String) :
    ∀ (uids seen : List String) (recs : List MessageRecord) (seen' : List String),
      process_email_ids f a s uids seen = ProcResult.ok recs seen' →
      ((recs.map (·.id)).Nodup ∧
        (∀ r ∈ recs, r.id ∈ uids ∧ r.id ∉ seen ∧ r.id ∈ seen') ∧
        ∀ x ∈ seen, x ∈ seen') := by
  intro uids
  induction uids with
  | nil =>
    intro seen recs seen' h
    simp only [process_email_ids, ProcResult.ok.injEq] at h
    obtain ⟨rfl, rfl⟩ := h
    simp
  | cons uid rest ih =>
    intro seen recs seen' h
    simp only [process_email_ids] at h
    cases hc : seen.contains uid with
    | true =>
      rw [hc] at h
      simp only [if_pos rfl] at h
      obtain ⟨hnd, hmem, hmono⟩ := ih seen recs seen' h
      exact ⟨hnd, fun r hr => ⟨List.mem_cons_of_mem uid (hmem r hr).1,
        (hmem r hr).2.1, (hmem r hr).2.2⟩, hmono⟩
    | false =>
      rw [hc] at h
      simp only [Bool.false_eq_true, if_neg (by simp : ¬False)] at h
      have huid : uid ∉ seen := by
        intro hin
        have h2 : seen.contains uid = true := List.elem_eq_true_of_mem hin
        rw [hc] at h2
        cases h2
      cases hf : fetch_email_subject f uid with
      | ok subject =>
        rw [hf] at h
        cases hrec : process_email_ids f a s rest (uid :: seen) with
        | ok recs0 seen0 =>
          rw [hrec] at h
          simp only [ProcResult.ok.injEq] at h
          obtain ⟨rfl, rfl⟩ := h
          obtain ⟨hnd, hmem, hmono⟩ := ih (uid :: seen) recs0 seen0 hrec
          have huid_in : uid ∈ seen0 := hmono uid (List.mem_cons_self uid seen)
          refine ⟨?_, ?_, ?_⟩
          · simp only [List.map_cons, List.nodup_cons]
            refine ⟨?_, hnd⟩
            intro hin
            simp only [List.mem_map] at hin
            obtain ⟨r, hr, hrid⟩ := hin
            exact (hmem r hr).2.1 (hrid ▸ List.mem_cons_self uid seen)
          · intro r hr
            rcases List.mem_cons.mp hr with h | h
            · subst h
              exact ⟨List.mem_cons_self uid rest, huid, huid_in⟩
            · exact ⟨List.mem_cons_of_mem uid (hmem r h).1,
                fun hin => (hmem r h).2.1 (List.mem_cons_of_mem uid hin), (hmem r h).2.2⟩
          · exact fun x hx => hmono x (List.mem_cons_of_mem uid hx)
        | err e seen0 => rw [hrec] at h; cases h
      | error e =>
        rw [hf] at h
        cases e with
        | transport m =>
          cases a with
          | true =>
            simp only [if_pos rfl] at h
            obtain ⟨hnd, hmem, hmono⟩ := ih (uid :: seen) recs seen' h
            refine ⟨hnd, ?_, fun x hx => hmono x (List.mem_cons_of_mem uid hx)⟩
            intro r hr
            exact ⟨List.mem_cons_of_mem uid (hmem r hr).1,
              fun hin => (hmem r hr).2.1 (List.mem_cons_of_mem uid hin), (hmem r hr).2.2⟩
          | false => cases h
        | other m => cases h

/-- Per-criterion body of `search_specific_senders` (lines 204-235): search,
skip when empty, process; on a propagated error, reconnect (success modelled
by `reconnectOk`) and retry the search and processing once, swallowing a
second failure. The seen-set survives a failed first attempt because the
Python set is mutated in place. -/
def search_one_sender (search : String → List String) (f : String → Except PyExc String)
    (a r : Bool) (name : String) (seen : List String) : List MessageRecord × List String :=
  let uids := search name
  if uids.isEmpty then ([], seen)
  else
    match process_email_ids f a name uids seen with
    | .ok recs seen1 => (recs, seen1)
    | .err _ seen1 =>
      if r then
        let uids2 := search name
        if uids2.isEmpty then ([], seen1)
        else
          match process_email_ids f a name uids2 seen1 with
          | .ok recs2 seen2 => (recs2, seen2)
          | .err _ seen2 => ([], seen2)
      else ([], seen1)

/-- `imap_service.py` `search_specific_senders` (lines 183-237): fold the
per-criterion body over the criteria, extending the aggregated results and
threading the seen-set. -/
def search_specific_senders_loop (search : String → List String)
    (f : String → Except PyExc String) (a r : Bool) :
    List String → List String → List MessageRecord × List String
  | [], seen => ([], seen)
  | name :: rest, seen =>
    match search_one_sender search f a r name seen with
    | (recs, seen1) =>
      match search_specific_senders_loop search f a r rest seen1 with
      | (more, seenF) => (recs ++ more, seenF)

theorem process_email_ids_err_seen_mono (f : String → Except PyExc String) (a : Bool)
    (s : String) (uids seen : List String) (e : PyExc) (seen' : List String)
    (h : process_email_ids f a s uids seen = ProcResult.err e seen') :
    ∀ x ∈ seen, x ∈ seen' := by
  intro x hx
  have := process_email_ids_seen_mono f a s uids seen x hx
  rw [h] at this
  exact this

theorem search_one_sender_spec (search : String → List String)
    (f : String → Except PyExc String) (a r : Bool) (name : String) (seen : List String) :
    (((search_one_sender search f a r name seen).1.map (·.id)).Nodup ∧
      (∀ rec ∈ (search_one_sender search f a r name seen).1,
        rec.id ∉ seen ∧ rec.id ∈ (search_one_sender search f a r name seen).2 ∧
        rec.id ∈ search name) ∧
      (∀ x ∈ seen, x ∈ (search_one_sender search f a r name seen).2)) := by
  unfold search_one_sender
  by_cases he : (search name).isEmpty
  · simp [he]
  · simp only [he, Bool.false_eq_true, if_neg (by simp : ¬False)]
    cases h1 : process_email_ids f a name (search name) seen with
    | ok recs seen1 =>
      obtain ⟨hnd, hmem, hmono⟩ := process_email_ids_ok_spec f a name (search name) seen recs seen1 h1
      exact ⟨hnd, fun rec hr => ⟨(hmem rec hr).2.1, (hmem rec hr).2.2, (hmem rec hr).1⟩, hmono⟩
    | err e1 seen1 =>
      have hmono1 := process_email_ids_err_seen_mono f a name (search name) seen e1 seen1 h1
      cases r with
      | false => exact ⟨by simp, by simp, hmono1⟩
      | true =>
        simp only [if_pos rfl, he, Bool.false_eq_true, if_neg (by simp : ¬False)]
        cases h2 : process_email_ids f a name (search name) seen1 with
        | ok recs2 seen2 =>
          obtain ⟨hnd2, hmem2, hmono2⟩ :=
            process_email_ids_ok_spec f a name (search name) seen1 recs2 seen2 h2
          refine ⟨hnd2, ?_, fun x hx => hmono2 x (hmono1 x hx)⟩
          intro rec hr
          exact ⟨fun hin => (hmem2 rec hr).2.1 (hmono1 rec.id hin),
            (hmem2 rec hr).2.2, (hmem2 rec hr).1⟩
        | err e2 seen2 =>
          have hmono2 := process_email_ids_err_seen_mono f a name (search name) seen1 e2 seen2 h2
          exact ⟨by simp, by simp, fun x hx => hmono2 x (hmono1 x hx)⟩

theorem search_loop_spec (search : String → List String) (f : String → Except PyExc String)
    (a r : Bool) :
    ∀ (names seen : List String),
      (((search_specific_senders_loop search f a r names seen).1.map (·.id)).Nodup ∧
        (∀ rec ∈ (search_specific_senders_loop search f a r names seen).1,
          rec.id ∉ seen ∧ rec.id ∈ (search_specific_senders_loop search f a r names seen).2 ∧
          ∃ n ∈ names, rec.id ∈ search n) ∧
        (∀ x ∈ seen, x ∈ (search_specific_senders_loop search f a r names seen).2)) := by
  intro names
  induction names with
  | nil => intro seen; simp [search_specific_senders_loop]
  | cons name rest ih =>
    intro seen
    obtain ⟨hnd1, hmem1, hmono1⟩ := search_one_sender_spec search f a r name seen
    cases h1 : search_one_sender search f a r name seen with
    | mk recs seen1 =>
      rw [h1] at hnd1 hmem1 hmono1
      obtain ⟨hnd2, hmem2, hmono2⟩ := ih seen1
      cases h2 : search_specific_senders_loop search f a r rest seen1 with
      | mk more seenF =>
        rw [h2] at hnd2 hmem2 hmono2
        simp only [search_specific_senders_loop, h1, h2]
        refine ⟨?_, ?_, ?_⟩
        · rw [List.map_append]
          rw [List.nodup_append]
          refine ⟨hnd1, hnd2, ?_⟩
          intro x hx1 hx2
          simp only [List.mem_map] at hx1 hx2
          obtain ⟨rec1, hr1, hid1⟩ := hx1
          obtain ⟨rec2, hr2, hid2⟩ := hx2
          have hin1 : rec1.id ∈ seen1 := (hmem1 rec1 hr1).2.1
          have hnotin : rec2.id ∉ seen1 := (hmem2 rec2 hr2).1
          exact hnotin (hid2 ▸ hid1 ▸ hin1)
        · intro rec hr
          rcases List.mem_append.mp hr with h | h
          · refine ⟨(hmem1 rec h).1, hmono2 rec.id (hmem1 rec h).2.1, ?_⟩
            exact ⟨name, List.mem_cons_self name rest, (hmem1 rec h).2.2⟩
          · refine ⟨fun hin => (hmem2 rec h).1 (hmono1 rec.id hin), (hmem2 rec h).2.1, ?_⟩
            obtain ⟨n, hn, hid⟩ := (hmem2 rec h).2.2
            exact ⟨n, List.mem_cons_of_mem name hn, hid⟩
        · exact fun x hx => hmono2 x (hmono1 x hx)

/-- Entry: `search_specific_senders` starting from an empty seen-set. -/
def search_specific_senders (search : String → List String)
    (f : String → Except PyExc String) (a r : Bool) (sender_names : List String) :
    List MessageRecord :=
  (search_specific_senders_loop search f a r sender_names []).1

/-- `main.py` line 54: `ids_to_delete = [mail['id'] for mail in emails]`. -/
def ids_to_delete (emails : List MessageRecord) : List String := emails.map (·.id)

/-- C1: in every run, each UID occurs in at most one aggregated
`MessageRecord` (the id list is duplicate-free), the UIDs passed to deletion
are a subset of the UIDs returned by searches in the same run, and two
criteria `A`, `B` both matching UID 42 yield exactly one record for it. -/
theorem search_dedup_and_deletion_subset_spec (search : String → List String)
    (rawFetch : String → Except PyExc String) (noopAlive reconnectOk : Bool)
    (sender_names : List String) :
    (ids_to_delete (search_specific_senders search rawFetch noopAlive reconnectOk sender_names)).Nodup ∧
    (∀ uid ∈ ids_to_delete (search_specific_senders search rawFetch noopAlive reconnectOk sender_names),
      ∃ n ∈ sender_names, uid ∈ search n) ∧
    ids_to_delete (search_specific_senders
        (fun n => if n = "A" then ["42", "7"] else if n = "B" then ["42"] else [])
        (fun _ => Except.ok "s") true true ["A", "B"]) = ["42", "7"] := by
  obtain ⟨hnd, hmem, _⟩ := search_loop_spec search rawFetch noopAlive reconnectOk sender_names []
  refine ⟨hnd, ?_, rfl⟩
  intro uid huid
  simp only [ids_to_delete, search_specific_senders, List.mem_map] at huid
  obtain ⟨rec, hr, rfl⟩ := huid
  exact (hmem rec hr).2.2

theorem search_dedup_and_deletion_subset_witness :
    ∃ n ∈ ["A", "B"],
      "42" ∈ (fun n => if n = "A" then ["42", "7"] else if n = "B" then ["42"] else []) n :=
  (search_dedup_and_deletion_subset_spec
      (fun n => if n = "A" then ["42", "7"] else if n = "B" then ["42"] else [])
      (fun _ => Except.ok "s") true true ["A", "B"]).2.1 "42" (by decide)

/-- The subject actually recorded for a UID: the fetched subject, or the
placeholder when the raw fetch raised. -/
def fetched_subject (rawFetch : String → Except PyExc String) (uid : String) : String :=
  match rawFetch uid with
  | .ok s => s
  | .error _ => "(Error fetching subject)"

/-- Exception-free rendering of `_process_email_ids`: every fresh UID yields
a record whose subject is `subjectOf uid`. -/
def process_email_ids_pure (subjectOf : String → String) (sender : String) :
    List String → List String → List MessageRecord × List String
  | [], seen => ([], seen)
  | uid :: rest, seen =>
    if seen.contains uid then process_email_ids_pure subjectOf sender rest seen
    else
      (⟨uid, sender, subjectOf uid⟩ :: (process_email_ids_pure subjectOf sender rest (uid :: seen)).1,
        (process_email_ids_pure subjectOf sender rest (uid :: seen)).2)

/-- C7 counterexample: every subject fetch raises a transport error and the
connection is confirmed dead (`noopAlive = false`), yet `_process_email_ids`
does not propagate any error or abort: it returns records for both UIDs with
the placeholder subject, because `_fetch_email_subject` catches the
transport error itself and the liveness-check branch is never reached. -/
theorem fetch_error_propagation_counterexample :
    process_email_ids (fun _ => Except.error (PyExc.transport "ssl")) false "S" ["1", "2"] [] =
      ProcResult.ok [⟨"1", "S", "(Error fetching subject)"⟩, ⟨"2", "S", "(Error fetching subject)"⟩]
        ["2", "1"] := rfl

/-- C7 (amended): a transport error raised while fetching a subject is caught
inside `_fetch_email_subject`, which substitutes the placeholder subject
`"(Error fetching subject)"`; the record is still created and processing
always continues with the next UID, whether or not the connection is alive —
the liveness-check-and-propagate branch of `_process_email_ids` applies only
to transport errors raised outside the subject fetch. -/
theorem process_email_ids_transport_spec (rawFetch : String → Except PyExc String)
    (noopAlive : Bool) (sender : String) (uids seen : List String)
    (h : ∀ uid e, rawFetch uid = Except.error e → ∃ m, e = PyExc.transport m) :
    process_email_ids rawFetch noopAlive sender uids seen =
      ProcResult.ok (process_email_ids_pure (fetched_subject rawFetch) sender uids seen).1
        (process_email_ids_pure (fetched_subject rawFetch) sender uids seen).2 := by
  induction uids generalizing seen with
  | nil => rfl
  | cons uid rest ih =>
    simp only [process_email_ids, process_email_ids_pure]
    cases hc : seen.contains uid with
    | true =>
      simp only [if_pos rfl]
      exact ih seen
    | false =>
      simp only [Bool.false_eq_true, if_neg (by simp : ¬False)]
      cases hf : rawFetch uid with
      | ok s =>
        simp only [fetch_email_subject, hf, ih (uid :: seen), fetched_subject]
      | error e =>
        obtain ⟨m, rfl⟩ := h uid e hf
        simp only [fetch_email_subject, hf, ih (uid :: seen), fetched_subject]

theorem process_email_ids_transport_witness :
    process_email_ids (fun _ => Except.error (PyExc.transport "flaky")) true "N" ["9"] [] =
      ProcResult.ok
        (process_email_ids_pure
          (fetched_subject (fun _ => Except.error (PyExc.transport "flaky"))) "N" ["9"] []).1
        (process_email_ids_pure
          (fetched_subject (fun _ => Except.error (PyExc.transport "flaky"))) "N" ["9"] []).2 :=
  process_email_ids_transport_spec _ _ _ _ _
    (fun _ _e he => ⟨"flaky", (Except.error.inj he).symm⟩)

/-! ## Batch deletion (`imap_service.py`, `delete_emails` lines 331-357,
`_process_deletion_batch` lines 300-312) -/

/-- Python's `range(0, stop, step)` for `step > 0` (ceiling-many elements). -/
def pyRange (stop step : Nat) : List Nat :=
  List.range' 0 ((stop + step - 1) / step) step

/-- The batches produced by the loop at `imap_service.py` lines 352-354:
`email_ids[k:k+batch_size]` for `k in range(0, len(email_ids), batch_size)`. -/
def deleteBatchesOf (email_ids : List α) (batch_size : Nat) : List (List α) :=
  (pyRange email_ids.length batch_size).map fun k => (email_ids.drop k).take batch_size

theorem deleteBatchesOf_nil (batch_size : Nat) :
    deleteBatchesOf ([] : List α) batch_size = [] := by
  cases batch_size with
  | zero => simp [deleteBatchesOf, pyRange]
  | succ n =>
    simp only [deleteBatchesOf, pyRange, List.length_nil]
    rw [Nat.zero_add, Nat.div_eq_of_lt (by omega)]
    rfl

theorem deleteBatchesOf_cons (l : List α) (bs : Nat) (hbs : 0 < bs) (hne : l ≠ []) :
    deleteBatchesOf l bs = l.take bs :: deleteBatchesOf (l.drop bs) bs := by
  have hlen : 0 < l.length := List.length_pos.mpr hne
  have hceil : (l.length + bs - 1) / bs = (l.length - 1) / bs + 1 := by
    have h1 : l.length + bs - 1 = (l.length - 1) + bs := by omega
    rw [h1, Nat.add_div_right _ hbs]
  have hceil2 : ((l.drop bs).length + bs - 1) / bs = (l.length - 1) / bs := by
    rw [List.length_drop]
    rcases Nat.lt_or_ge l.length bs with hlt | hge
    · have h1 : l.length - bs = 0 := by omega
      rw [h1, Nat.zero_add, Nat.div_eq_of_lt (by omega), Nat.div_eq_of_lt (by omega)]
    · have h1 : l.length - bs + bs - 1 = l.length - 1 := by omega
      rw [h1]
  unfold deleteBatchesOf pyRange
  rw [hceil, hceil2, List.range'_succ, List.map_cons, List.drop_zero, Nat.zero_add]
  congr 1
  have hmap : List.map (fun x => bs + x) (List.range' 0 ((l.length - 1) / bs) bs) =
      List.range' bs ((l.length - 1) / bs) bs := by
    rw [List.map_add_range']
    norm_num
  rw [← hmap, List.map_map]
  exact List.map_congr_left fun k _ => by
    simp only [Function.comp_apply, List.drop_drop]

theorem deleteBatchesOf_flatten (bs : Nat) (hbs : 0 < bs) :
    ∀ (n : Nat) (l : List α), l.length ≤ n → (deleteBatchesOf l bs).flatten = l := by
  intro n
  induction n with
  | zero =>
    intro l hl
    have h0 : l = [] := List.eq_nil_of_length_eq_zero (by omega)
    subst h0
    simp [deleteBatchesOf_nil]
  | succ n ih =>
    intro l hl
    by_cases hne : l = []
    · subst hne; simp [deleteBatchesOf_nil]
    · rw [deleteBatchesOf_cons l bs hbs hne]
      have hlen : 0 < l.length := List.length_pos.mpr hne
      have hd : (l.drop bs).length ≤ n := by
        rw [List.length_drop]; omega
      rw [List.flatten_cons, ih (l.drop bs) hd, List.take_append_drop]

theorem deleteBatchesOf_size (l : List α) (bs : Nat) :
    ∀ b ∈ deleteBatchesOf l bs, b.length ≤ bs := by
  intro b hb
  simp only [deleteBatchesOf, List.mem_map] at hb
  obtain ⟨k, _, rfl⟩ := hb
  simp only [List.length_take]
  omega

/-- `_process_deletion_batch` (lines 300-312), recording which UIDs end up
flagged: each UID is stored individually; on failure (`storeOk uid = false`)
one retry after reconnect is attempted (`retryOk`); a UID whose retry also
fails is logged and skipped. -/
def process_deletion_batch_flags (storeOk retryOk : String → Bool) : List String → List String
  | [] => []
  | uid :: rest =>
    if storeOk uid then uid :: process_deletion_batch_flags storeOk retryOk rest
    else if retryOk uid then uid :: process_deletion_batch_flags storeOk retryOk rest
    else process_deletion_batch_flags storeOk retryOk rest

/-- `delete_emails` (lines 331-357): no-op on an empty list, else flag each
batch in order (the final expunge is separate and does not affect which UIDs
were flagged). -/
def delete_emails_flags (storeOk retryOk : String → Bool) (email_ids : List String)
    (batch_size : Nat) : List String :=
  if email_ids.isEmpty then []
  else
    ((deleteBatchesOf email_ids batch_size).map
      (process_deletion_batch_flags storeOk retryOk)).flatten

theorem process_deletion_batch_flags_id (storeOk retryOk : String → Bool)
    (hok : ∀ u, storeOk u = true) : ∀ b : List String,
    process_deletion_batch_flags storeOk retryOk b = b := by
  intro b
  induction b with
  | nil => rfl
  | cons uid rest ih =>
    simp only [process_deletion_batch_flags]
    rw [if_pos (hok uid), ih]

set_option maxRecDepth 8192 in
/-- C2: for every non-empty UID list and positive `batch_size`, the batches
are contiguous, in order, each of size at most `batch_size`, and their
concatenation is the input list; 250 UIDs with `batch_size = 100` give
exactly batches of sizes 100, 100, 50; and when no store command fails every
UID is flagged exactly once. -/
theorem delete_emails_batching_spec (storeOk retryOk : String → Bool)
    (email_ids : List String) (batch_size : Nat)
    (hne : email_ids ≠ []) (hbs : 0 < batch_size) :
    (∀ b ∈ deleteBatchesOf email_ids batch_size, b.length ≤ batch_size) ∧
    (deleteBatchesOf email_ids batch_size).flatten = email_ids ∧
    ((∀ u, storeOk u = true) →
      delete_emails_flags storeOk retryOk email_ids batch_size = email_ids) ∧
    ((∀ u, storeOk u = true) → email_ids.Nodup → ∀ uid ∈ email_ids,
      (delete_emails_flags storeOk retryOk email_ids batch_size).count uid = 1) ∧
    (deleteBatchesOf (List.replicate 250 "u") 100).map List.length = [100, 100, 50] := by
  have hflat : (deleteBatchesOf email_ids batch_size).flatten = email_ids :=
    deleteBatchesOf_flatten batch_size hbs email_ids.length email_ids le_rfl
  have hflags : (∀ u, storeOk u = true) →
      delete_emails_flags storeOk retryOk email_ids batch_size = email_ids := by
    intro hok
    unfold delete_emails_flags
    rw [if_neg (by simpa using hne)]
    rw [List.map_congr_left fun b _ => process_deletion_batch_flags_id storeOk retryOk hok b]
    simpa using hflat
  refine ⟨deleteBatchesOf_size email_ids batch_size, hflat, hflags, ?_, ?_⟩
  · intro hok hnd uid huid
    rw [hflags hok]
    exact List.count_eq_one_of_mem hnd huid
  · rfl

theorem delete_emails_batching_witness :
    (deleteBatchesOf ["a", "b", "c"] 2).flatten = ["a", "b", "c"] :=
  (delete_emails_batching_spec (fun _ => true) (fun _ => false) ["a", "b", "c"] 2
    (by decide) (by decide)).2.1

/-! ## Sender search with charset fallback (`imap_service.py`,
`_search_sender_on_server` lines 115-144) -/

/-- The search predicate built at line 117: `(FROM "<name>")`. -/
def searchCriteria (name : String) : String := "(FROM \"" ++ name ++ "\")"

/-- Outcome of one `_uid_search_with_charset` call (including the liveness
check and possible reconnect it performs first): either the server reply
`(typ, data)` — with `data` reduced to `none` for falsy `data`/`data[0]`
and `some uids` for `data[0].split()` — or a raised `imaplib.IMAP4.error` /
`OSError` (from the command or from the reconnect attempt). -/
inductive AttemptOutcome where
  | reply (typ : String) (data : Option (List String))
  | raised (msg : String)
deriving DecidableEq

/-- The `try` body at lines 129-135: a non-`'OK'` status raises into the same
`except`, so it is one more failure mode; falsy data yields `some []`. -/
def evalSearchAttempt : AttemptOutcome → Option (List String)
  | .raised _ => none
  | .reply typ data => if typ = "OK" then some (data.getD []) else none

/-- `_search_sender_on_server`: the `for charset in ('UTF-8', None)` loop.
Returns the attempted charsets (in order) and the resulting UID list; a
failed UTF-8 attempt falls through to the no-charset attempt, and a second
failure logs and returns `[]` instead of raising. -/
def search_sender_on_server (attempt : Option String → String → AttemptOutcome)
    (name : String) : List (Option String) × List String :=
  match evalSearchAttempt (attempt (some "UTF-8") (searchCriteria name)) with
  | some uids => ([some "UTF-8"], uids)
  | none =>
    match evalSearchAttempt (attempt none (searchCriteria name)) with
    | some uids => ([some "UTF-8", none], uids)
    | none => ([some "UTF-8", none], [])

/-- C5: for every criterion and server behaviour, the first attempt requests
the UTF-8 charset; a successful first attempt is the only attempt; on any
failure of the first attempt — transport/protocol raise and non-OK status
(charset rejection) alike, both mapped to `none` by `evalSearchAttempt` —
exactly one retry with no explicit charset follows; and when both attempts
fail the function returns `[]` rather than raising. -/
theorem search_charset_fallback_spec (attempt : Option String → String → AttemptOutcome)
    (name : String) :
    ((search_sender_on_server attempt name).1.head? = some (some "UTF-8")) ∧
    (∀ uids, evalSearchAttempt (attempt (some "UTF-8") (searchCriteria name)) = some uids →
      search_sender_on_server attempt name = ([some "UTF-8"], uids)) ∧
    (evalSearchAttempt (attempt (some "UTF-8") (searchCriteria name)) = none →
      (search_sender_on_server attempt name).1 = [some "UTF-8", none]) ∧
    (evalSearchAttempt (attempt (some "UTF-8") (searchCriteria name)) = none →
      evalSearchAttempt (attempt none (searchCriteria name)) = none →
      search_sender_on_server attempt name = ([some "UTF-8", none], [])) ∧
    (∀ m, evalSearchAttempt (AttemptOutcome.raised m) = none) ∧
    (∀ typ data, typ ≠ "OK" → evalSearchAttempt (AttemptOutcome.reply typ data) = none) := by
  refine ⟨?_, ?_, ?_, ?_, fun m => rfl, ?_⟩
  · unfold search_sender_on_server
    cases evalSearchAttempt (attempt (some "UTF-8") (searchCriteria name)) with
    | some uids => rfl
    | none =>
      cases evalSearchAttempt (attempt none (searchCriteria name)) with
      | some uids => rfl
      | none => rfl
  · intro uids h
    unfold search_sender_on_server
    rw [h]
  · intro h
    unfold search_sender_on_server
    rw [h]
    cases evalSearchAttempt (attempt none (searchCriteria name)) with
    | some uids => rfl
    | none => rfl
  · intro h1 h2
    unfold search_sender_on_server
    rw [h1, h2]
  · intro typ data h
    simp [evalSearchAttempt, h]

theorem search_charset_fallback_witness :
    search_sender_on_server (fun _ _ => AttemptOutcome.raised "timeout") "Netflix" =
      ([some "UTF-8", none], []) :=
  (search_charset_fallback_spec (fun _ _ => AttemptOutcome.raised "timeout") "Netflix").2.2.2.1
    rfl rfl

/-! ## Header decoding (`imap_service.py`, `_try_decode_with_encoding`
lines 58-63, `_decode_bytes_with_fallbacks` lines 65-80,
`_decode_header_safely` lines 82-94)

The byte decoders themselves (`bytes.decode(enc, errors='ignore')`) are
oracles: `reg` is the codec registry (`none` models an unknown codec, i.e. a
`LookupError`; a registered codec with `errors='ignore'` is a total function
and never raises `UnicodeDecodeError`), and `utf8Ignore` is the codec used by
the last-resort `val.decode('utf-8', errors='ignore')`. `decode_header` is
the oracle `dh` (`Except.error` models it raising). All model functions are
total — no input makes an exception escape. -/

/-- Python's `str.lower` (character-wise lower-casing). -/
def pyLower (s : String) : String := String.mk (s.data.map Char.toLower)

/-- `_try_decode_with_encoding`: `none` models the caught `LookupError` for
an unknown codec; a known codec decodes leniently and totally. -/
def try_decode_with_encoding (reg : String → Option (List Nat → String)) (val : List Nat)
    (encoding : String) : Option String :=
  match reg encoding with
  | some dec => some (dec val)
  | none => none

/-- `_decode_bytes_with_fallbacks`: try the declared encoding unless falsy or
a placeholder (`unknown-8bit`/`unknown`), then `utf-8`, `latin-1`,
`iso-8859-1`, and as a last resort decode with UTF-8 ignoring errors. -/
def decode_bytes_with_fallbacks (reg : String → Option (List Nat → String))
    (utf8Ignore : List Nat → String) (val : List Nat) (encoding : Option String) : String :=
  match (match encoding with
    | some e =>
      if e == "" || ["unknown-8bit", "unknown"].contains (pyLower e) then none
      else try_decode_with_encoding reg val e
    | none => none) with
  | some r => r
  | none =>
    match try_decode_with_encoding reg val "utf-8" with
    | some r => r
    | none =>
      match try_decode_with_encoding reg val "latin-1" with
      | some r => r
      | none =>
        match try_decode_with_encoding reg val "iso-8859-1" with
        | some r => r
        | none => utf8Ignore val

/-- One fragment of `email.header.decode_header`'s result list: a byte string
with an optional declared charset, or an already-decoded string. -/
inductive HeaderFragment where
  | bytesVal (b : List Nat) (enc : Option String)
  | strVal (s : String) (enc : Option String)
deriving DecidableEq

/-- `_decode_header_safely`: empty input gives `""`; a `decode_header` raise
or an empty fragment list (whose `[0]` raises `IndexError`) is caught and
degrades to the original string; otherwise only fragment `[0]` is used —
bytes through the fallback chain, strings via `str(val)`. -/
def decode_header_safely (reg : String → Option (List Nat → String))
    (utf8Ignore : List Nat → String) (dh : String → Except Unit (List HeaderFragment))
    (header_val : String) : String :=
  if header_val = "" then ""
  else
    match dh header_val with
    | .error _ => header_val
    | .ok [] => header_val
    | .ok (HeaderFragment.bytesVal b enc :: _) => decode_bytes_with_fallbacks reg utf8Ignore b enc
    | .ok (HeaderFragment.strVal s _ :: _) => s

/-- C6: the header decoder returns `""` on absent input; otherwise the byte
decoder attempts the declared encoding first unless it is falsy or a
placeholder, falls back in order to UTF-8 then Latin-1/ISO-8859-1, and as a
last resort decodes leniently with UTF-8 ignoring errors; a `decode_header`
failure degrades to the original string. Every model function is total, so
no input — including bytes invalid in their declared encoding, whose lenient
decode under a registered codec always yields a string — makes an exception
escape. -/
theorem decode_header_chain_spec (reg : String → Option (List Nat → String))
    (utf8Ignore latin1d : List Nat → String) (dh : String → Except Unit (List HeaderFragment))
    (val : List Nat) :
    (decode_header_safely reg utf8Ignore dh "" = "") ∧
    (∀ e d, reg e = some d → (e == "") = false →
      (["unknown-8bit", "unknown"].contains (pyLower e)) = false →
      decode_bytes_with_fallbacks reg utf8Ignore val (some e) = d val) ∧
    (∀ e, reg "utf-8" = some utf8Ignore →
      ((e == "") = true ∨ (["unknown-8bit", "unknown"].contains (pyLower e)) = true ∨
        reg e = none) →
      decode_bytes_with_fallbacks reg utf8Ignore val (some e) = utf8Ignore val) ∧
    (reg "utf-8" = some utf8Ignore →
      decode_bytes_with_fallbacks reg utf8Ignore val none = utf8Ignore val) ∧
    (reg "utf-8" = none → reg "latin-1" = some latin1d →
      decode_bytes_with_fallbacks reg utf8Ignore val none = latin1d val) ∧
    (reg "utf-8" = none → reg "latin-1" = none → reg "iso-8859-1" = none →
      decode_bytes_with_fallbacks reg utf8Ignore val none = utf8Ignore val) ∧
    (∀ hv, hv ≠ "" → dh hv = Except.error () →
      decode_header_safely reg utf8Ignore dh hv = hv) := by
  refine ⟨rfl, ?_, ?_, ?_, ?_, ?_, ?_⟩
  · intro e d hreg he hph
    have he' : ¬e = "" := by simpa using he
    have hph' : ¬(pyLower e = "unknown-8bit" ∨ pyLower e = "unknown") := by simpa using hph
    simp [decode_bytes_with_fallbacks, try_decode_with_encoding, he', hph', hreg]
  · intro e hutf8 hcond
    rcases hcond with h | h | h
    · have h' : e = "" := by simpa using h
      simp [decode_bytes_with_fallbacks, try_decode_with_encoding, h', hutf8]
    · have h' : pyLower e = "unknown-8bit" ∨ pyLower e = "unknown" := by simpa using h
      simp [decode_bytes_with_fallbacks, try_decode_with_encoding, h', hutf8]
    · by_cases hb : e = ""
      · simp [decode_bytes_with_fallbacks, try_decode_with_encoding, hb, hutf8]
      · by_cases hb2 : pyLower e = "unknown-8bit" ∨ pyLower e = "unknown"
        · simp [decode_bytes_with_fallbacks, try_decode_with_encoding, hb, hb2, hutf8]
        · simp [decode_bytes_with_fallbacks, try_decode_with_encoding, hb, hb2, h, hutf8]
  · intro hutf8
    simp [decode_bytes_with_fallbacks, try_decode_with_encoding, hutf8]
  · intro hutf8 hlatin
    simp [decode_bytes_with_fallbacks, try_decode_with_encoding, hutf8, hlatin]
  · intro h1 h2 h3
    simp [decode_bytes_with_fallbacks, try_decode_with_encoding, h1, h2, h3]
  · intro hv hne hdh
    unfold decode_header_safely
    rw [if_neg hne, hdh]

theorem decode_header_chain_witness :
    decode_bytes_with_fallbacks (fun e => if e = "utf-8" then some (fun _ => "u") else none)
      (fun _ => "u") [255] (some "unknown-8bit") = "u" :=
  (decode_header_chain_spec (fun e => if e = "utf-8" then some (fun _ => "u") else none)
      (fun _ => "u") (fun _ => "lat") (fun _ => Except.error ()) [255]).2.2.1 "unknown-8bit"
    rfl (Or.inr (Or.inl rfl))

/-- Decode of a single structured fragment, as `_decode_header_safely` treats
`decoded_list[0]`. -/
def first_fragment_decode (reg : String → Option (List Nat → String))
    (utf8Ignore : List Nat → String) : HeaderFragment → String
  | HeaderFragment.bytesVal b enc => decode_bytes_with_fallbacks reg utf8Ignore b enc
  | HeaderFragment.strVal s _ => s

/-- C10: when structured MIME decoding yields fragments `frag :: rest`, the
header decoder returns the decoding of `frag` alone — the result does not
depend on `rest`, so all subsequent fragments are discarded. -/
theorem decode_header_first_fragment_spec (reg : String → Option (List Nat → String))
    (utf8Ignore : List Nat → String) (frag : HeaderFragment) (rest : List HeaderFragment)
    (hv : String) (h : hv ≠ "") :
    decode_header_safely reg utf8Ignore (fun _ => Except.ok (frag :: rest)) hv =
      first_fragment_decode reg utf8Ignore frag := by
  unfold decode_header_safely
  rw [if_neg h]
  cases frag with
  | bytesVal b enc => rfl
  | strVal s enc => rfl

theorem decode_header_first_fragment_witness :
    decode_header_safely (fun _ => none) (fun _ => "X")
      (fun _ => Except.ok
        [HeaderFragment.bytesVal [255] (some "utf-8"), HeaderFragment.strVal "tail" none])
      "Subject: =?x?=" =
      first_fragment_decode (fun _ => none) (fun _ => "X")
        (HeaderFragment.bytesVal [255] (some "utf-8")) :=
  decode_header_first_fragment_spec (fun _ => none) (fun _ => "X")
    (HeaderFragment.bytesVal [255] (some "utf-8")) [HeaderFragment.strVal "tail" none]
    "Subject: =?x?=" (by decide)
